import Mathlib

/-!
Verification development for the DivisionDataSet web service
(`src/backend/processor/views.py`).

The embedding models, faithfully to the Python source:
  - the character-level string helpers the code relies on
    (`str.strip`, `str.lower`, `str.replace`, `in`, `split`);
  - the stage-2 permissive attribute-line repair
    (`load_kdd_dataset_permissive`, views.py lines 248-315);
  - the stage-3 NSL-KDD schema-fallback parser
    (`load_nsl_kdd_dataset`, views.py lines 317-389);
  - the three-stage loader chain
    (`load_kdd_dataset_from_content`, views.py lines 219-236);
  - the two-stage stratified splitter
    (`train_val_test_split_optimized`, views.py lines 124-136), with
    sklearn's `train_test_split(stratify=...)` modelled as a deterministic
    stratified partition (the fixed seed 42 makes the real call
    deterministic as well; the model keeps input order inside each part,
    which is equivalent up to the seeded permutation for the multiset,
    size and per-class-count properties checked here);
  - the histogram generation failure policy
    (`generate_optimized_histograms`, views.py lines 163-217);
  - the stratify-column resolution of the request handler
    (`process_dataset`, views.py lines 67-77).

Strings are handled at the level of their character lists (`String.data`);
character classes are the ASCII ones, matching the data the service is
documented to consume.
-/

deriving instance DecidableEq for Except

namespace NslKdd

/-- Model of Python `sub in s` for strings: `pat` occurs contiguously in `s`. -/
def containsSubL (pat : List Char) : List Char → Bool
  | [] => pat.isEmpty
  | l@(_ :: rest) => pat.isPrefixOf l || containsSubL pat rest

/-- Model of Python `pat in s` (substring test). -/
def pyContains (s pat : String) : Bool :=
  containsSubL pat.data s.data

/-- Fuel-indexed engine of Python `str.replace`: replaces every
non-overlapping occurrence of `pat`, scanning left to right and continuing
after the replacement text. Fuel `s.length` is always enough because each
step consumes at least one character of the remaining input. -/
def replaceAllFuel (pat rep : List Char) : Nat → List Char → List Char
  | 0, l => l
  | _ + 1, [] => []
  | fuel + 1, l@(c :: rest) =>
    if pat.isPrefixOf l then rep ++ replaceAllFuel pat rep fuel (l.drop pat.length)
    else c :: replaceAllFuel pat rep fuel rest

/-- Model of Python `s.replace(pat, rep)`. -/
def pyReplace (s pat rep : String) : String :=
  String.mk (replaceAllFuel pat.data rep.data s.data.length s.data)

/-- Model of Python `s.lower()` (ASCII case folding). -/
def toLowerS (s : String) : String :=
  String.mk (s.data.map Char.toLower)

/-- Model of Python `s.upper()` (ASCII case folding). -/
def toUpperS (s : String) : String :=
  String.mk (s.data.map Char.toUpper)

/-- Whitespace trimming of both ends of a character list. -/
def trimL (l : List Char) : List Char :=
  ((l.dropWhile Char.isWhitespace).reverse.dropWhile Char.isWhitespace).reverse

/-- Model of Python `s.strip()`. -/
def trimS (s : String) : String :=
  String.mk (trimL s.data)

/-- Model of Python `s.startswith(pre)`. -/
def startsWithS (s pre : String) : Bool :=
  pre.data.isPrefixOf s.data

/-- Splitting a character list at every occurrence of `sep`, keeping empty
pieces, as Python `s.split(sep)` does for a one-character separator. -/
def splitOnCharL (sep : Char) : List Char → List (List Char)
  | [] => [[]]
  | c :: rest =>
    if c = sep then [] :: splitOnCharL sep rest
    else
      match splitOnCharL sep rest with
      | [] => [[c]]
      | h :: t => (c :: h) :: t

/-- Model of Python `content.split(chr(10))`. -/
def splitLinesS (s : String) : List String :=
  (splitOnCharL (Char.ofNat 10) s.data).map String.mk

/-- Model of Python `line.split(",")`. -/
def splitCommaS (s : String) : List String :=
  (splitOnCharL ',' s.data).map String.mk

/-- Joining lines back with a newline, as Python `chr(10).join(lines)`. -/
def joinLinesS (ls : List String) : String :=
  String.intercalate "\n" ls

/-- Characters removed by `value.strip(quotes)` in the stage-3 parser:
a single or a double quote. -/
def isQuoteChar (c : Char) : Bool :=
  c = '\'' || c = '"'

/-- Model of Python `v.strip(quotes)`: quote characters removed from both
ends. -/
def stripQuotesL (l : List Char) : List Char :=
  ((l.dropWhile isQuoteChar).reverse.dropWhile isQuoteChar).reverse

/-- Value of a run of ASCII digits read in base 10. -/
def digitsToNat (l : List Char) : Nat :=
  l.foldl (fun acc c => acc * 10 + (c.toNat - 48)) 0

/-- Typed scalar held by one cell of the parsed table: the stage-3 parser
produces Python ints, floats and strings. A float is kept as the exact
decimal it was parsed from, `floatv m e` denoting the rational
`m / 10 ^ e` (every decimal literal the parser accepts denotes such a
value; see `floatValue`). -/
inductive Field where
  | intv (n : Int)
  | floatv (m : Int) (e : Nat)
  | strv (s : String)
deriving DecidableEq

/-- Rational value denoted by the decimal float representation `floatv m e`. -/
def floatValue (m : Int) (e : Nat) : Rat :=
  (m : Rat) / 10 ^ e

/-- Modelled CPython `float(v)` on sign-free strings made of ASCII digits
and dots, the only strings the stage-3 parser ever passes to it: digits
with at most one dot and at least one digit. Returns the exact decimal
value as a (mantissa, fraction-length) pair. -/
def pyFloatCore (w : List Char) : Option (Nat × Nat) :=
  if w.all (fun c => c.isDigit || c = '.') && w.any Char.isDigit &&
      Nat.ble (w.count '.') 1 then
    some (digitsToNat (w.takeWhile (fun c => c ≠ '.')) *
        10 ^ ((w.dropWhile (fun c => c ≠ '.')).tail).length +
      digitsToNat ((w.dropWhile (fun c => c ≠ '.')).tail),
      ((w.dropWhile (fun c => c ≠ '.')).tail).length)
  else none

/-- Modelled CPython `float(v)` with the optional leading minus sign. -/
def pyFloatParseL (v : List Char) : Option (Int × Nat) :=
  if v.head? = some '-' then (pyFloatCore v.tail).map (fun p => (-(p.1 : Int), p.2))
  else (pyFloatCore v).map (fun p => ((p.1 : Int), p.2))

/-- Modelled CPython `int(v)` on a sign-free string: digits only, nonempty. -/
def pyIntCore (w : List Char) : Option Int :=
  if !w.isEmpty && w.all Char.isDigit then some (digitsToNat w : Int) else none

/-- Modelled CPython `int(v)` with the optional leading minus sign. -/
def pyIntParseL (v : List Char) : Option Int :=
  if v.head? = some '-' then (pyIntCore v.tail).map (fun n => -n)
  else pyIntCore v

/-- The numeric gate of views.py line 367:
`value.replace(dot, empty).replace(minus, empty).isdigit()` - after deleting
every dot and minus sign, a nonempty all-digit string must remain. -/
def digitCheckL (v : List Char) : Bool :=
  let t := v.filter (fun c => !(c = '.') && !(c = '-'))
  !t.isEmpty && t.all Char.isDigit

/-- Field coercion of views.py lines 367-376 applied to the already stripped
value: if the digit gate passes, try `float` when a dot is present else
`int`, falling back to the string itself when the conversion raises. -/
def processStrippedL (v : List Char) : Field :=
  if digitCheckL v then
    if v.contains '.' then
      match pyFloatParseL v with
      | some p => Field.floatv p.1 p.2
      | none => Field.strv (String.mk v)
    else
      match pyIntParseL v with
      | some n => Field.intv n
      | none => Field.strv (String.mk v)
  else Field.strv (String.mk v)

/-- Field processing of views.py line 366 onwards:
`value.strip().strip(quotes)` then the numeric coercion. -/
def processValue (raw : String) : Field :=
  processStrippedL (stripQuotesL (trimL raw.data))

/-- Character admitted by the spec's numeric pattern: an ASCII digit, a dot
or a minus sign. -/
def isNumChar (c : Char) : Bool :=
  c.isDigit || c = '.' || c = '-'

/-- Minus-sign side condition of the spec's numeric pattern: no minus sign,
or exactly one and it leads. -/
def minusOkL (v : List Char) : Bool :=
  v.count '-' = 0 || (v.count '-' = 1 && v.head? = some '-')

/-- Modelled from the spec: the numeric pattern of section 4.1, "digits, at
most one dot and one leading minus" - this definition follows the spec's
words and is compared with the source-derived `processStrippedL`. -/
def numericPatternL (v : List Char) : Bool :=
  v.any Char.isDigit && v.all isNumChar && Nat.ble (v.count '.') 1 && minusOkL v

/-- The fixed 42-column NSL-KDD schema of views.py lines 336-349. -/
def nslKddAttributes : List String :=
  ["duration", "protocol_type", "service", "flag", "src_bytes",
   "dst_bytes", "land", "wrong_fragment", "urgent", "hot",
   "num_failed_logins", "logged_in", "num_compromised", "root_shell",
   "su_attempted", "num_root", "num_file_creations", "num_shells",
   "num_access_files", "num_outbound_cmds", "is_host_login",
   "is_guest_login", "count", "srv_count", "serror_rate",
   "srv_serror_rate", "rerror_rate", "srv_rerror_rate", "same_srv_rate",
   "diff_srv_rate", "srv_diff_host_rate", "dst_host_count",
   "dst_host_srv_count", "dst_host_same_srv_rate", "dst_host_diff_srv_rate",
   "dst_host_same_src_port_rate", "dst_host_srv_diff_host_rate",
   "dst_host_serror_rate", "dst_host_srv_serror_rate", "dst_host_rerror_rate",
   "dst_host_srv_rerror_rate", "class"]

/-- Parsed table: column names plus rows of typed fields, standing for the
`pandas.DataFrame` the loaders return. -/
structure DataFrame where
  columns : List String
  rows : List (List Field)
deriving DecidableEq

/-- Data lines of the stage-3 parser (views.py lines 352-356): everything
after the data marker, stripped, with blank lines and `%` comments removed. -/
def nslDataLines (content : String) (start : Nat) : List String :=
  (((splitLinesS content).drop start).map trimS).filter
    (fun l => !(l = "") && !startsWithS l "%")

/-- Parsed-and-filtered rows of the stage-3 parser (views.py lines 359-377):
each surviving line split on commas and coerced fieldwise, keeping only rows
whose field count equals the 42-column schema's length. -/
def nslGoodRows (content : String) (start : Nat) : List (List Field) :=
  ((nslDataLines content start).map (fun l => (splitCommaS l).map processValue)).filter
    (fun r => r.length = nslKddAttributes.length)

/-- Stage-3 loader `load_nsl_kdd_dataset` (views.py lines 317-389): find the
case-insensitive `@DATA` marker, apply the fixed schema positionally, drop
rows of wrong arity, fail when no row or no marker remains; every failure
message is wrapped with the stage's prefix by the surrounding handler. -/
def load_nsl_kdd_dataset (content : String) : Except String DataFrame :=
  match (splitLinesS content).findIdx? (fun l => toUpperS (trimS l) = "@DATA") with
  | none => .error "Error cargando dataset NSL-KDD: No se encontró la sección @DATA en el archivo"
  | some i =>
    if (nslGoodRows content (i + 1)).isEmpty then
      .error "Error cargando dataset NSL-KDD: No se pudieron cargar datos del archivo"
    else .ok ⟨nslKddAttributes, nslGoodRows content (i + 1)⟩

/-- Type-alias rewriting of views.py lines 267-272: each alias is detected
case-insensitively on the current line, and when detected the line is
rewritten by Python `str.replace`, which substitutes every occurrence of the
exact lowercase token. -/
def aliasFix (line : String) : String :=
  let l1 := if pyContains (toLowerS line) "string" then pyReplace line "string" "STRING" else line
  let l2 := if pyContains (toLowerS l1) "real" then pyReplace l1 "real" "NUMERIC" else l1
  if pyContains (toLowerS l2) "integer" then pyReplace l2 "integer" "NUMERIC" else l2

/-- Nominal-enumeration forcing of views.py lines 274-291: a line already
holding both braces is left alone; otherwise the first matching well-known
NSL-KDD column-name substring (checked case-insensitively, in source order)
replaces the whole line by its canonical declaration. -/
def nominalFix (line : String) : String :=
  if pyContains line "\x7b" && pyContains line "\x7d" then line
  else if pyContains (toLowerS line) "protocol_type" then "@ATTRIBUTE protocol_type {tcp,udp,icmp}"
  else if pyContains (toLowerS line) "service" then "@ATTRIBUTE service {http,ftp,smtp,ssh,dns,other}"
  else if pyContains (toLowerS line) "flag" then "@ATTRIBUTE flag {SF,S1,S2,S3,S0,OTH}"
  else if pyContains (toLowerS line) "land" then "@ATTRIBUTE land {0,1}"
  else if pyContains (toLowerS line) "logged_in" then "@ATTRIBUTE logged_in {0,1}"
  else if pyContains (toLowerS line) "is_host_login" then "@ATTRIBUTE is_host_login {0,1}"
  else if pyContains (toLowerS line) "is_guest_login" then "@ATTRIBUTE is_guest_login {0,1}"
  else line

/-- Per-line repair of the permissive parser (views.py lines 264-293):
only lines recognized as attribute declarations are touched. -/
def repairLine (line : String) : String :=
  if startsWithS (toLowerS line) "@attribute" then nominalFix (aliasFix line) else line

/-- Whole-text cleaning of the permissive parser (views.py lines 253-296):
split into lines, strip each, drop blanks, repair attribute lines,
reassemble. -/
def cleanContent (content : String) : String :=
  joinLinesS ((((splitLinesS content).map trimS).filter (fun l => !(l = ""))).map repairLine)

/-- Stage-2 loader `load_kdd_dataset_permissive` (views.py lines 248-315),
with the strict ARFF parser (the external `arff.loads` library call) taken
as a parameter: clean the text, retry the strict parse, and on failure wrap
both the original stage-1 reason and the new one. -/
def load_kdd_dataset_permissive {T : Type} (strict : String → Except String T)
    (content : String) (originalError : String) : Except String T :=
  match strict (cleanContent content) with
  | .ok t => .ok t
  | .error e =>
    .error ("No se pudo cargar el archivo ARFF. Error original: " ++ originalError ++
      ". Error en carga permisiva: " ++ e)

/-- Aggregate failure message of views.py line 236: the three stage reasons
concatenated in order. -/
def mkLoadError (e1 e2 e3 : String) : String :=
  "No se pudo cargar el archivo ARFF. Errores:\n1. " ++ e1 ++ "\n2. " ++ e2 ++ "\n3. " ++ e3

/-- Loader chain `load_kdd_dataset_from_content` (views.py lines 219-236)
over its three strategies: try stage 1, on failure stage 2 (which receives
stage 1's reason), on failure stage 3, and when all fail raise the
aggregate message. -/
def load_kdd_dataset_from_content {T : Type} (s1 : String → Except String T)
    (s2 : String → String → Except String T) (s3 : String → Except String T)
    (content : String) : Except String T :=
  match s1 content with
  | .ok t => .ok t
  | .error e1 =>
    match s2 content e1 with
    | .ok t => .ok t
    | .error e2 =>
      match s3 content with
      | .ok t => .ok t
      | .error e3 => .error (mkLoadError e1 e2 e3)

/-- Ceiling of `a / b` on naturals, mirroring numpy `ceil` on the exact
fraction sklearn computes for the test-set size. -/
def ceilDiv (a b : Nat) : Nat :=
  (a + b - 1) / b

/-- Distinct labels of a table in order of first appearance. -/
def classList {α L : Type} [DecidableEq L] (lab : α → L) (rows : List α) : List L :=
  (rows.map lab).dedup

/-- Number of rows of `rows` carrying label `l`. -/
def countLabel {α L : Type} [DecidableEq L] (lab : α → L) (rows : List α) (l : L) : Nat :=
  (rows.map lab).count l

/-- Insertion of one element into a list sorted by `le`. -/
def insertBy {α : Type} (le : α → α → Bool) (x : α) : List α → List α
  | [] => [x]
  | y :: ys => if le x y then x :: y :: ys else y :: insertBy le x ys

/-- Insertion sort by `le`; used to order labels by fractional remainder
when distributing the test quota, mirroring sklearn `_approximate_mode`. -/
def sortBy {α : Type} (le : α → α → Bool) : List α → List α
  | [] => []
  | x :: xs => insertBy le x (sortBy le xs)

/-- Per-class test-set quota: floored proportional allocation, with the
remainder of `nTest` granted one-by-one to the classes of largest
fractional remainder, a deterministic rendering of sklearn
`_approximate_mode` under the fixed seed. -/
def quotaFun {α L : Type} [DecidableEq L] (lab : α → L) (rows : List α) (nTest : Nat) : L → Nat :=
  let n := rows.length
  let labels := classList lab rows
  let base := fun l => countLabel lab rows l * nTest / n
  let frac := fun l => countLabel lab rows l * nTest % n
  let rem := nTest - (labels.map base).sum
  let chosen := (sortBy (fun l1 l2 => Nat.ble (frac l2) (frac l1)) labels).take rem
  fun l => base l + (if l ∈ chosen then 1 else 0)

/-- Single pass assigning each row to the test part while its class quota
lasts, else to the train part. -/
def assignGo {α L : Type} [DecidableEq L] (lab : α → L) (q : L → Nat) :
    List α → List α × List α
  | [] => ([], [])
  | r :: rest =>
    if 0 < q (lab r) then
      let p := assignGo lab (fun l => if l = lab r then q l - 1 else q l) rest
      (r :: p.1, p.2)
    else
      let p := assignGo lab q rest
      (p.1, r :: p.2)

/-- Failure message of sklearn when a class is too small to stratify. -/
def leastPopulatedMsg : String :=
  "The least populated class in y has only 1 member, which is too few."

/-- Modelled sklearn `train_test_split(rows, test_size=testNum/testDen,
random_state=rstate, shuffle=True, stratify=labels)`: validates the input
as sklearn's `StratifiedShuffleSplit` does (nonempty data, every class with
at least 2 members, both parts at least as large as the class count), then
partitions with `ceil(testSize * n)` rows in the test part, allocated per
class proportionally. The fixed seed makes the library call deterministic;
the model realizes one deterministic outcome, keeping input order. Returns
`(train, test)`. -/
def sciTrainTestSplit {α L : Type} [DecidableEq L] (testNum testDen : Nat) (rstate : Nat)
    (lab : α → L) (rows : List α) : Except String (List α × List α) :=
  let n := rows.length
  let labels := classList lab rows
  let nTest := ceilDiv (testNum * n) testDen
  let nTrain := n - nTest
  if n = 0 then .error "With n_samples=0, test_size and train_size cannot be empty"
  else if labels.any (fun l => countLabel lab rows l < 2) then .error leastPopulatedMsg
  else if nTrain < labels.length then
    .error "The train_size should be greater or equal to the number of classes"
  else if nTest < labels.length then
    .error "The test_size should be greater or equal to the number of classes"
  else
    .ok ((assignGo lab (quotaFun lab rows nTest) rows).2,
      (assignGo lab (quotaFun lab rows nTest) rows).1)

/-- Splitter `train_val_test_split_optimized` (views.py lines 124-136): a
60/40 stratified split of the table, then a 50/50 stratified split of the
40% remainder, both with the same `rstate`; returns (train, val, test).
The caller passes `rstate = 42`. -/
def train_val_test_split_optimized {α L : Type} [DecidableEq L] (rstate : Nat)
    (lab : α → L) (df : List α) : Except String (List α × List α × List α) :=
  match sciTrainTestSplit 2 5 rstate lab df with
  | .error e => .error e
  | .ok p =>
    match sciTrainTestSplit 1 2 rstate lab p.2 with
    | .error e => .error e
    | .ok q => .ok (p.1, q.1, q.2)

/-- Sizes of the three splits, when the splitter succeeded. -/
def splitSizes {α : Type} (r : Except String (List α × List α × List α)) :
    Option (Nat × Nat × Nat) :=
  match r with
  | .error _ => none
  | .ok (a, b, c) => some (a.length, b.length, c.length)

/-- Occurrences of label `l` in each of the three splits, when the splitter
succeeded. -/
def splitLabelCounts {α L : Type} [DecidableEq L] (lab : α → L)
    (r : Except String (List α × List α × List α)) (l : L) : Option (Nat × Nat × Nat) :=
  match r with
  | .error _ => none
  | .ok (a, b, c) => some (((a.map lab).count l, (b.map lab).count l, (c.map lab).count l))

/-- Tag of one of the three splits. -/
inductive SplitTag where
  | train
  | validation
  | test
deriving DecidableEq

/-- The three encoded histogram images of the response (views.py lines
163-217); the code stores base64 text, an empty string standing for the
empty placeholder image. -/
structure Histograms where
  train : String
  validation : String
  test : String
deriving DecidableEq

/-- Histogram generation `generate_optimized_histograms` (views.py lines
163-217) over an abstract per-split renderer: the three renders run inside
one `try` block in split order, and the single exception handler replaces
the whole dictionary with empty placeholders, so the first failure discards
every histogram, including ones already rendered; the function itself
always returns. -/
def generate_optimized_histograms (render : SplitTag → Except String String) : Histograms :=
  match render SplitTag.train with
  | .error _ => ⟨"", "", ""⟩
  | .ok a =>
    match render SplitTag.validation with
    | .error _ => ⟨"", "", ""⟩
    | .ok b =>
      match render SplitTag.test with
      | .error _ => ⟨"", "", ""⟩
      | .ok c => ⟨a, b, c⟩

/-- Stratify-column resolution of `process_dataset` (views.py lines 67-77):
`protocol_type` when present, else the first column whose lowercased name
holds the substring `protocol`, else nothing. -/
def resolveStratifyCol (cols : List String) : Option String :=
  if cols.contains "protocol_type" then some "protocol_type"
  else (cols.filter (fun c => pyContains (toLowerS c) "protocol")).head?

/-- Client-error message of views.py line 75. -/
def stratifyErrorMsg : String :=
  "El dataset debe contener la columna \"protocol_type\" para realizar la división estratificada"

/-- Handler fragment of views.py lines 67-80: resolve the stratify column
from the loaded table's columns, rejecting with the client error before any
split runs when resolution fails; `doSplit` stands for the rest of the
pipeline from the split onwards. -/
def processLoadedDf {T : Type} (cols : List String) (doSplit : String → Except String T) :
    Except String T :=
  match resolveStratifyCol cols with
  | some c => doSplit c
  | none => .error stratifyErrorMsg

/-- Concrete 150-row table of the end-to-end scenario: rows are indices,
labels 0, 1, 2 standing for tcp (100 rows), udp (30 rows), icmp (20 rows). -/
def df150 : List Nat :=
  List.range 150

/-- Label of each row of `df150`. -/
def lab150 (i : Nat) : Nat :=
  if i < 100 then 0 else if i < 130 then 1 else 2

/-- Concrete ARFF text whose `protocol_type` attribute is declared with the
bare type `string` instead of a nominal enumeration. -/
def arffStringTyped : String :=
  "@RELATION kdd\n@ATTRIBUTE protocol_type string\n@ATTRIBUTE class {normal,anomaly}\n@DATA\ntcp,normal"

/-- The same ARFF text with the canonical `protocol_type` enumeration. -/
def arffCanonical : String :=
  "@RELATION kdd\n@ATTRIBUTE protocol_type {tcp,udp,icmp}\n@ATTRIBUTE class {normal,anomaly}\n@DATA\ntcp,normal"

/-- A well-formed 42-field data row of zeros. -/
def row42 : String :=
  String.intercalate "," (List.replicate 42 "0")

/-- Stage-3 input holding one 42-field row and one 3-field row. -/
def sampleMixed : String :=
  "@DATA\n" ++ row42 ++ "\n1,2,3"

/-- Stage-3 input whose only data row has the wrong field count. -/
def sampleBadRows : String :=
  "@DATA\n1,2,3\n\n% comentario"

/-- Renderer whose validation-split render fails while the train and test
renders succeed. -/
def cRender : SplitTag → Except String String := fun t =>
  match t with
  | SplitTag.train => .ok "imagenA"
  | SplitTag.validation => .error "fallo de matplotlib"
  | SplitTag.test => .ok "imagenC"

/-- Renderer whose validation-split render fails, for the witness input. -/
def wRender : SplitTag → Except String String := fun t =>
  match t with
  | SplitTag.train => .ok "imagenW"
  | SplitTag.validation => .error "fallo"
  | SplitTag.test => .ok "imagenZ"

/-- Witness stage-1 strategy: always fails. -/
def w2s1 : String → Except String Nat := fun _ => .error "fallo uno"

/-- Witness stage-2 strategy: always fails. -/
def w2s2 : String → String → Except String Nat := fun _ _ => .error "fallo dos"

/-- Witness stage-3 strategy: always fails. -/
def w2s3 : String → Except String Nat := fun _ => .error "fallo tres"

/-- Witness split continuation for the stratify-resolution claim. -/
def w8split : String → Except String Nat := fun _ => .ok 0

/-- C2: the loader tries the three strategies in the fixed order, returns
the table of the first that succeeds (whatever the later strategies would
do, since they are universally quantified), and fails exactly when all
three fail, with the error aggregating the three reasons in strategy
order. -/
theorem C2_loader_chain : ∀ (T : Type) (s1 : String → Except String T)
    (s2 : String → String → Except String T) (s3 : String → Except String T) (c : String),
    (∀ t, s1 c = .ok t → load_kdd_dataset_from_content s1 s2 s3 c = .ok t) ∧
    (∀ e1 t, s1 c = .error e1 → s2 c e1 = .ok t →
      load_kdd_dataset_from_content s1 s2 s3 c = .ok t) ∧
    (∀ e1 e2 t, s1 c = .error e1 → s2 c e1 = .error e2 → s3 c = .ok t →
      load_kdd_dataset_from_content s1 s2 s3 c = .ok t) ∧
    (∀ e1 e2 e3, s1 c = .error e1 → s2 c e1 = .error e2 → s3 c = .error e3 →
      load_kdd_dataset_from_content s1 s2 s3 c = .error (mkLoadError e1 e2 e3)) ∧
    (∀ e, load_kdd_dataset_from_content s1 s2 s3 c = .error e →
      ∃ e1 e2 e3, s1 c = .error e1 ∧ s2 c e1 = .error e2 ∧ s3 c = .error e3 ∧
        e = mkLoadError e1 e2 e3) := by
  intro T s1 s2 s3 c
  refine ⟨?_, ?_, ?_, ?_, ?_⟩
  · intro t h
    simp [load_kdd_dataset_from_content, h]
  · intro e1 t h1 h2
    simp [load_kdd_dataset_from_content, h1, h2]
  · intro e1 e2 t h1 h2 h3
    simp [load_kdd_dataset_from_content, h1, h2, h3]
  · intro e1 e2 e3 h1 h2 h3
    simp [load_kdd_dataset_from_content, h1, h2, h3]
  · intro e h
    unfold load_kdd_dataset_from_content at h
    cases h1 : s1 c with
    | ok t => simp [h1] at h
    | error e1 =>
      simp only [h1] at h
      cases h2 : s2 c e1 with
      | ok t => simp [h2] at h
      | error e2 =>
        simp only [h2] at h
        cases h3 : s3 c with
        | ok t => simp [h3] at h
        | error e3 =>
          simp only [h3] at h
          injection h with h4
          exact ⟨e1, e2, e3, rfl, h2, rfl, h4.symm⟩

/-- C2 witness: with three concrete always-failing strategies the chain
fails with the aggregate message. -/
theorem C2_loader_chain_witness :
    load_kdd_dataset_from_content w2s1 w2s2 w2s3 "x" =
      .error (mkLoadError "fallo uno" "fallo dos" "fallo tres") :=
  (C2_loader_chain Nat w2s1 w2s2 w2s3 "x").2.2.2.1 "fallo uno" "fallo dos" "fallo tres"
    rfl rfl rfl

/-- C7 (amended): a failing render of any split makes the generator return
empty placeholders for all three splits, discarding histograms already
rendered, while the call itself still returns normally; only when all three
renders succeed are the three images returned. -/
theorem C7_histograms_amended : ∀ (render : SplitTag → Except String String),
    ((∃ t e, render t = .error e) → generate_optimized_histograms render = ⟨"", "", ""⟩) ∧
    (∀ a b c, render SplitTag.train = .ok a → render SplitTag.validation = .ok b →
      render SplitTag.test = .ok c → generate_optimized_histograms render = ⟨a, b, c⟩) := by
  intro render
  constructor
  · rintro ⟨t, e, ht⟩
    cases t with
    | train => simp [generate_optimized_histograms, ht]
    | validation =>
      cases h1 : render SplitTag.train with
      | error e1 => simp [generate_optimized_histograms, h1]
      | ok a => simp [generate_optimized_histograms, h1, ht]
    | test =>
      cases h1 : render SplitTag.train with
      | error e1 => simp [generate_optimized_histograms, h1]
      | ok a =>
        cases h2 : render SplitTag.validation with
        | error e2 => simp [generate_optimized_histograms, h1, h2]
        | ok b => simp [generate_optimized_histograms, h1, h2, ht]
  · intro a b c h1 h2 h3
    simp [generate_optimized_histograms, h1, h2, h3]

/-- C7 counterexample: with the train and test renders succeeding and the
validation render failing, the successfully rendered train and test images
are not returned - every histogram comes back empty, refuting per-split
recovery. -/
theorem C7_partial_render_counterexample :
    cRender SplitTag.train = .ok "imagenA" ∧
    cRender SplitTag.test = .ok "imagenC" ∧
    generate_optimized_histograms cRender = ⟨"", "", ""⟩ ∧
    generate_optimized_histograms cRender ≠ ⟨"imagenA", "", "imagenC"⟩ := by
  exact ⟨rfl, rfl, rfl, by decide⟩

/-- C7 witness: a concrete failing renderer yields the all-empty histogram
record. -/
theorem C7_histograms_amended_witness :
    generate_optimized_histograms wRender = ⟨"", "", ""⟩ :=
  (C7_histograms_amended wRender).1 ⟨SplitTag.validation, "fallo", rfl⟩

/-- C8: the stratify key resolves to `protocol_type` when that column is
present, otherwise to the first column whose lowercased name holds
`protocol`; any resolved column holds `protocol` case-insensitively; and
when no column does, the handler rejects with the client error whatever the
downstream split would do. -/
theorem C8_stratify_resolution : ∀ (T : Type) (cols : List String),
    (cols.contains "protocol_type" = true → resolveStratifyCol cols = some "protocol_type") ∧
    (cols.contains "protocol_type" = false →
      resolveStratifyCol cols =
        (cols.filter (fun c => pyContains (toLowerS c) "protocol")).head?) ∧
    (∀ c, resolveStratifyCol cols = some c → pyContains (toLowerS c) "protocol" = true) ∧
    ((∀ c ∈ cols, pyContains (toLowerS c) "protocol" = false) →
      ∀ doSplit : String → Except String T,
        processLoadedDf cols doSplit = .error stratifyErrorMsg) := by
  intro T cols
  refine ⟨?_, ?_, ?_, ?_⟩
  · intro h
    unfold resolveStratifyCol
    rw [if_pos h]
  · intro h
    unfold resolveStratifyCol
    rw [if_neg (by rw [h]; exact Bool.false_ne_true)]
  · intro c hc
    unfold resolveStratifyCol at hc
    by_cases h : cols.contains "protocol_type" = true
    · rw [if_pos h] at hc
      injection hc with hc2
      rw [← hc2]
      decide
    · rw [if_neg h] at hc
      cases hf : cols.filter (fun c => pyContains (toLowerS c) "protocol") with
      | nil => rw [hf] at hc; cases hc
      | cons x xs =>
        rw [hf] at hc
        injection hc with hc2
        have hx : x ∈ cols.filter (fun c => pyContains (toLowerS c) "protocol") := by
          rw [hf]; exact List.mem_cons_self x xs
        rw [← hc2]
        simpa using List.of_mem_filter hx
  · intro hall doSplit
    have hpt : ¬cols.contains "protocol_type" = true := by
      intro hcon
      have hmem : "protocol_type" ∈ cols := List.elem_iff.mp hcon
      exact absurd (hall "protocol_type" hmem) (by decide)
    have hfil : cols.filter (fun c => pyContains (toLowerS c) "protocol") = [] := by
      rw [List.filter_eq_nil_iff]
      intro a ha
      simp [hall a ha]
    unfold processLoadedDf resolveStratifyCol
    rw [if_neg hpt, hfil]
    rfl

/-- C8 witness: a table without any protocol-like column is rejected with
the client error. -/
theorem C8_stratify_resolution_witness :
    processLoadedDf ["duration", "service"] w8split = .error stratifyErrorMsg :=
  (C8_stratify_resolution Nat ["duration", "service"]).2.2.2 (by decide) w8split

/-- Replacement with a pattern that has no occurrence leaves the input
unchanged, whatever the fuel. -/
theorem replaceAllFuel_id (pat rep : List Char) :
    ∀ (fuel : Nat) (l : List Char), containsSubL pat l = false →
      replaceAllFuel pat rep fuel l = l := by
  intro fuel
  induction fuel with
  | zero => intro l _; rfl
  | succ n ih =>
    intro l h
    cases l with
    | nil => rfl
    | cons c rest =>
      simp only [containsSubL, Bool.or_eq_false_iff] at h
      unfold replaceAllFuel
      rw [if_neg (by rw [h.1]; exact Bool.false_ne_true)]
      rw [ih rest h.2]

/-- Python replace is the identity when the pattern does not occur in the
string. -/
theorem pyReplace_of_not_contains (s pat rep : String) (h : pyContains s pat = false) :
    pyReplace s pat rep = s := by
  unfold pyContains at h
  unfold pyReplace
  rw [replaceAllFuel_id pat.data rep.data s.data.length s.data h]

/-- C10: the alias step never changes a line without a lowercase occurrence
of one of the three alias tokens, even when an uppercase occurrence makes
the case-insensitive detection fire; and on concrete lines it replaces
every lowercase occurrence, including inside attribute names, while
uppercase occurrences such as `REAL` are detected yet left byte-for-byte
unchanged. -/
theorem C10_alias_rewrite :
    (∀ line : String, pyContains line "string" = false → pyContains line "real" = false →
      pyContains line "integer" = false → aliasFix line = line) ∧
    pyContains (toLowerS "@ATTRIBUTE duration REAL") "real" = true ∧
    pyContains "@ATTRIBUTE duration REAL" "real" = false ∧
    aliasFix "@ATTRIBUTE duration REAL" = "@ATTRIBUTE duration REAL" ∧
    aliasFix "@attribute realvalue real" = "@attribute NUMERICvalue NUMERIC" ∧
    aliasFix "@attribute Mix Real real" = "@attribute Mix Real NUMERIC" := by
  refine ⟨?_, by decide, by decide, by decide, by decide, by decide⟩
  intro line h1 h2 h3
  have e1 : (if pyContains (toLowerS line) "string"
      then pyReplace line "string" "STRING" else line) = line := by
    by_cases hc : pyContains (toLowerS line) "string" = true
    · rw [if_pos hc]; exact pyReplace_of_not_contains line "string" "STRING" h1
    · rw [if_neg hc]
  have e2 : (if pyContains (toLowerS line) "real"
      then pyReplace line "real" "NUMERIC" else line) = line := by
    by_cases hc : pyContains (toLowerS line) "real" = true
    · rw [if_pos hc]; exact pyReplace_of_not_contains line "real" "NUMERIC" h2
    · rw [if_neg hc]
  have e3 : (if pyContains (toLowerS line) "integer"
      then pyReplace line "integer" "NUMERIC" else line) = line := by
    by_cases hc : pyContains (toLowerS line) "integer" = true
    · rw [if_pos hc]; exact pyReplace_of_not_contains line "integer" "NUMERIC" h3
    · rw [if_neg hc]
  simp only [aliasFix]
  rw [e1, e2, e3]

/-- C10 witness: a line whose only alias occurrence is uppercase comes out
of the alias step unchanged. -/
theorem C10_alias_rewrite_witness :
    aliasFix "@ATTRIBUTE src INTEGER" = "@ATTRIBUTE src INTEGER" :=
  C10_alias_rewrite.1 "@ATTRIBUTE src INTEGER" (by decide) (by decide) (by decide)

/-- Cleaning the string-typed sample yields exactly the canonical sample. -/
theorem cleanContent_sample : cleanContent arffStringTyped = arffCanonical := by
  decide

/-- A false Boolean test is not true. -/
theorem bool_ne_true {b : Bool} (h : b = false) : ¬(b = true) := by
  rw [h]
  exact Bool.false_ne_true

/-- The brace test of the nominal step fails when either brace is absent
from the alias-rewritten line. -/
theorem brace_test_false {line : String}
    (h : pyContains line "\x7b" = false ∨ pyContains line "\x7d" = false) :
    ¬((pyContains line "\x7b" && pyContains line "\x7d") = true) := by
  rcases h with h | h
  · rw [h]; simp
  · rw [h]; simp

/-- C3 (amended): on an attribute line, once the alias step (`string` to
STRING, `real` and `integer` to NUMERIC on lowercase occurrences) has run,
a line already holding both braces is left unchanged by the nominal step
(this is the amendment), and otherwise the first of the seven well-known
column-name substrings found case-insensitively in the line - checked in
the source order protocol_type, service, flag, land, logged_in,
is_host_login, is_guest_login - replaces the whole line by that column's
canonical declaration, while a line matching none of the seven is left as
the alias step produced it; and the string-typed sample file is cleaned
into exactly the canonical file, so stage 2 succeeds on it whenever the
strict parser accepts the canonical file, returning the same table. -/
theorem C3_attribute_repair_amended :
    (∀ line : String, startsWithS (toLowerS line) "@attribute" = true →
      pyContains (aliasFix line) "\x7b" = true →
      pyContains (aliasFix line) "\x7d" = true →
      repairLine line = aliasFix line) ∧
    (∀ line : String, startsWithS (toLowerS line) "@attribute" = true →
      (pyContains (aliasFix line) "\x7b" = false ∨ pyContains (aliasFix line) "\x7d" = false) →
      pyContains (toLowerS (aliasFix line)) "protocol_type" = true →
      repairLine line = "@ATTRIBUTE protocol_type {tcp,udp,icmp}") ∧
    (∀ line : String, startsWithS (toLowerS line) "@attribute" = true →
      (pyContains (aliasFix line) "\x7b" = false ∨ pyContains (aliasFix line) "\x7d" = false) →
      pyContains (toLowerS (aliasFix line)) "protocol_type" = false →
      pyContains (toLowerS (aliasFix line)) "service" = true →
      repairLine line = "@ATTRIBUTE service {http,ftp,smtp,ssh,dns,other}") ∧
    (∀ line : String, startsWithS (toLowerS line) "@attribute" = true →
      (pyContains (aliasFix line) "\x7b" = false ∨ pyContains (aliasFix line) "\x7d" = false) →
      pyContains (toLowerS (aliasFix line)) "protocol_type" = false →
      pyContains (toLowerS (aliasFix line)) "service" = false →
      pyContains (toLowerS (aliasFix line)) "flag" = true →
      repairLine line = "@ATTRIBUTE flag {SF,S1,S2,S3,S0,OTH}") ∧
    (∀ line : String, startsWithS (toLowerS line) "@attribute" = true →
      (pyContains (aliasFix line) "\x7b" = false ∨ pyContains (aliasFix line) "\x7d" = false) →
      pyContains (toLowerS (aliasFix line)) "protocol_type" = false →
      pyContains (toLowerS (aliasFix line)) "service" = false →
      pyContains (toLowerS (aliasFix line)) "flag" = false →
      pyContains (toLowerS (aliasFix line)) "land" = true →
      repairLine line = "@ATTRIBUTE land {0,1}") ∧
    (∀ line : String, startsWithS (toLowerS line) "@attribute" = true →
      (pyContains (aliasFix line) "\x7b" = false ∨ pyContains (aliasFix line) "\x7d" = false) →
      pyContains (toLowerS (aliasFix line)) "protocol_type" = false →
      pyContains (toLowerS (aliasFix line)) "service" = false →
      pyContains (toLowerS (aliasFix line)) "flag" = false →
      pyContains (toLowerS (aliasFix line)) "land" = false →
      pyContains (toLowerS (aliasFix line)) "logged_in" = true →
      repairLine line = "@ATTRIBUTE logged_in {0,1}") ∧
    (∀ line : String, startsWithS (toLowerS line) "@attribute" = true →
      (pyContains (aliasFix line) "\x7b" = false ∨ pyContains (aliasFix line) "\x7d" = false) →
      pyContains (toLowerS (aliasFix line)) "protocol_type" = false →
      pyContains (toLowerS (aliasFix line)) "service" = false →
      pyContains (toLowerS (aliasFix line)) "flag" = false →
      pyContains (toLowerS (aliasFix line)) "land" = false →
      pyContains (toLowerS (aliasFix line)) "logged_in" = false →
      pyContains (toLowerS (aliasFix line)) "is_host_login" = true →
      repairLine line = "@ATTRIBUTE is_host_login {0,1}") ∧
    (∀ line : String, startsWithS (toLowerS line) "@attribute" = true →
      (pyContains (aliasFix line) "\x7b" = false ∨ pyContains (aliasFix line) "\x7d" = false) →
      pyContains (toLowerS (aliasFix line)) "protocol_type" = false →
      pyContains (toLowerS (aliasFix line)) "service" = false →
      pyContains (toLowerS (aliasFix line)) "flag" = false →
      pyContains (toLowerS (aliasFix line)) "land" = false →
      pyContains (toLowerS (aliasFix line)) "logged_in" = false →
      pyContains (toLowerS (aliasFix line)) "is_host_login" = false →
      pyContains (toLowerS (aliasFix line)) "is_guest_login" = true →
      repairLine line = "@ATTRIBUTE is_guest_login {0,1}") ∧
    (∀ line : String, startsWithS (toLowerS line) "@attribute" = true →
      (pyContains (aliasFix line) "\x7b" = false ∨ pyContains (aliasFix line) "\x7d" = false) →
      pyContains (toLowerS (aliasFix line)) "protocol_type" = false →
      pyContains (toLowerS (aliasFix line)) "service" = false →
      pyContains (toLowerS (aliasFix line)) "flag" = false →
      pyContains (toLowerS (aliasFix line)) "land" = false →
      pyContains (toLowerS (aliasFix line)) "logged_in" = false →
      pyContains (toLowerS (aliasFix line)) "is_host_login" = false →
      pyContains (toLowerS (aliasFix line)) "is_guest_login" = false →
      repairLine line = aliasFix line) ∧
    repairLine "@ATTRIBUTE protocol_type string" = "@ATTRIBUTE protocol_type {tcp,udp,icmp}" ∧
    aliasFix "@attribute foo string" = "@attribute foo STRING" ∧
    aliasFix "@attribute foo real" = "@attribute foo NUMERIC" ∧
    aliasFix "@attribute foo integer" = "@attribute foo NUMERIC" ∧
    cleanContent arffStringTyped = arffCanonical ∧
    (∀ (T : Type) (strict : String → Except String T) (e0 : String) (t : T),
      strict arffCanonical = .ok t →
      load_kdd_dataset_permissive strict arffStringTyped e0 = .ok t) := by
  refine ⟨?_, ?_, ?_, ?_, ?_, ?_, ?_, ?_, ?_,
    by decide, by decide, by decide, by decide, cleanContent_sample, ?_⟩
  · intro line h1 hb1 hb2
    unfold repairLine
    rw [if_pos h1]
    unfold nominalFix
    rw [if_pos (by rw [hb1, hb2]; rfl)]
  · intro line h1 hbr hpt
    unfold repairLine
    rw [if_pos h1]
    unfold nominalFix
    rw [if_neg (brace_test_false hbr), if_pos hpt]
  · intro line h1 hbr hpt hsv
    unfold repairLine
    rw [if_pos h1]
    unfold nominalFix
    rw [if_neg (brace_test_false hbr), if_neg (bool_ne_true hpt), if_pos hsv]
  · intro line h1 hbr hpt hsv hfl
    unfold repairLine
    rw [if_pos h1]
    unfold nominalFix
    rw [if_neg (brace_test_false hbr), if_neg (bool_ne_true hpt),
      if_neg (bool_ne_true hsv), if_pos hfl]
  · intro line h1 hbr hpt hsv hfl hld
    unfold repairLine
    rw [if_pos h1]
    unfold nominalFix
    rw [if_neg (brace_test_false hbr), if_neg (bool_ne_true hpt),
      if_neg (bool_ne_true hsv), if_neg (bool_ne_true hfl), if_pos hld]
  · intro line h1 hbr hpt hsv hfl hld hli
    unfold repairLine
    rw [if_pos h1]
    unfold nominalFix
    rw [if_neg (brace_test_false hbr), if_neg (bool_ne_true hpt),
      if_neg (bool_ne_true hsv), if_neg (bool_ne_true hfl),
      if_neg (bool_ne_true hld), if_pos hli]
  · intro line h1 hbr hpt hsv hfl hld hli hhl
    unfold repairLine
    rw [if_pos h1]
    unfold nominalFix
    rw [if_neg (brace_test_false hbr), if_neg (bool_ne_true hpt),
      if_neg (bool_ne_true hsv), if_neg (bool_ne_true hfl),
      if_neg (bool_ne_true hld), if_neg (bool_ne_true hli), if_pos hhl]
  · intro line h1 hbr hpt hsv hfl hld hli hhl hgl
    unfold repairLine
    rw [if_pos h1]
    unfold nominalFix
    rw [if_neg (brace_test_false hbr), if_neg (bool_ne_true hpt),
      if_neg (bool_ne_true hsv), if_neg (bool_ne_true hfl),
      if_neg (bool_ne_true hld), if_neg (bool_ne_true hli),
      if_neg (bool_ne_true hhl), if_pos hgl]
  · intro line h1 hbr hpt hsv hfl hld hli hhl hgl
    unfold repairLine
    rw [if_pos h1]
    unfold nominalFix
    rw [if_neg (brace_test_false hbr), if_neg (bool_ne_true hpt),
      if_neg (bool_ne_true hsv), if_neg (bool_ne_true hfl),
      if_neg (bool_ne_true hld), if_neg (bool_ne_true hli),
      if_neg (bool_ne_true hhl), if_neg (bool_ne_true hgl)]
  · intro T strict e0 t h
    unfold load_kdd_dataset_permissive
    rw [cleanContent_sample, h]

/-- C3 counterexample: an attribute line for `protocol_type` that already
declares its own enumeration is left untouched by the repair, refuting the
replacement happening regardless of what the line declared. -/
theorem C3_braced_line_counterexample :
    repairLine "@ATTRIBUTE protocol_type {a,b}" = "@ATTRIBUTE protocol_type {a,b}" ∧
    "@ATTRIBUTE protocol_type {a,b}" ≠ "@ATTRIBUTE protocol_type {tcp,udp,icmp}" ∧
    startsWithS (toLowerS "@ATTRIBUTE protocol_type {a,b}") "@attribute" = true ∧
    pyContains (toLowerS "@ATTRIBUTE protocol_type {a,b}") "protocol_type" = true := by
  exact ⟨by decide, by decide, by decide, by decide⟩

/-- C3 witness: brace-free attribute lines naming `protocol_type`,
`service` and `flag` are forced to their canonical enumerations through
the matching conjuncts of the amended theorem. -/
theorem C3_attribute_repair_witness :
    repairLine "@attribute my_protocol_type real" = "@ATTRIBUTE protocol_type {tcp,udp,icmp}" ∧
    repairLine "@attribute service string" = "@ATTRIBUTE service {http,ftp,smtp,ssh,dns,other}" ∧
    repairLine "@attribute flag NUMERIC" = "@ATTRIBUTE flag {SF,S1,S2,S3,S0,OTH}" :=
  ⟨C3_attribute_repair_amended.2.1 "@attribute my_protocol_type real" (by decide)
    (Or.inl (by decide)) (by decide),
   C3_attribute_repair_amended.2.2.1 "@attribute service string" (by decide)
    (Or.inl (by decide)) (by decide) (by decide),
   C3_attribute_repair_amended.2.2.2.1 "@attribute flag NUMERIC" (by decide)
    (Or.inl (by decide)) (by decide) (by decide) (by decide)⟩

/-- C9: a successful stage-3 load returns the fixed schema and only rows of
the schema's arity, at least one; whenever the data marker is found, the
stage succeeds with exactly the surviving rows if any survive and fails
with the no-rows message if none do; concretely, a file with one 42-field
row and one 3-field row loads with the 42-field row alone (the short row
is silently dropped), while a file whose only row is short fails. -/
theorem C9_row_drop_policy :
    (∀ content df, load_nsl_kdd_dataset content = .ok df →
      df.columns = nslKddAttributes ∧ df.rows ≠ [] ∧
      ∀ r ∈ df.rows, r.length = nslKddAttributes.length) ∧
    (∀ content i,
      (splitLinesS content).findIdx? (fun l => toUpperS (trimS l) = "@DATA") = some i →
      (nslGoodRows content (i + 1) ≠ [] →
        load_nsl_kdd_dataset content = .ok ⟨nslKddAttributes, nslGoodRows content (i + 1)⟩) ∧
      (nslGoodRows content (i + 1) = [] →
        load_nsl_kdd_dataset content =
          .error "Error cargando dataset NSL-KDD: No se pudieron cargar datos del archivo")) ∧
    load_nsl_kdd_dataset sampleMixed =
      .ok ⟨nslKddAttributes, [List.replicate 42 (Field.intv 0)]⟩ ∧
    (splitCommaS "1,2,3").length = 3 ∧
    load_nsl_kdd_dataset sampleBadRows =
      .error "Error cargando dataset NSL-KDD: No se pudieron cargar datos del archivo" := by
  refine ⟨?_, ?_, by decide, by decide, by decide⟩
  · intro content df h
    unfold load_nsl_kdd_dataset at h
    cases hf : (splitLinesS content).findIdx? (fun l => toUpperS (trimS l) = "@DATA") with
    | none => simp [hf] at h
    | some i =>
      simp only [hf] at h
      by_cases he : (nslGoodRows content (i + 1)).isEmpty = true
      · rw [if_pos he] at h; cases h
      · rw [if_neg he] at h
        injection h with h2
        rw [← h2]
        refine ⟨rfl, ?_, ?_⟩
        · intro hnil
          rw [List.isEmpty_iff] at he
          exact he hnil
        · intro r hr
          have := List.of_mem_filter hr
          simpa using this
  · intro content i hf
    constructor
    · intro hne
      unfold load_nsl_kdd_dataset
      simp only [hf]
      rw [if_neg (by simp [List.isEmpty_iff, hne])]
    · intro hnil
      unfold load_nsl_kdd_dataset
      simp only [hf]
      rw [if_pos (by rw [hnil]; rfl)]

/-- C9 witness: the mixed sample's returned table has the fixed schema and
only rows of the schema's arity. -/
theorem C9_row_drop_policy_witness :
    (⟨nslKddAttributes, [List.replicate 42 (Field.intv 0)]⟩ : DataFrame).columns =
      nslKddAttributes ∧
    (⟨nslKddAttributes, [List.replicate 42 (Field.intv 0)]⟩ : DataFrame).rows ≠ [] ∧
    ∀ r ∈ (⟨nslKddAttributes, [List.replicate 42 (Field.intv 0)]⟩ : DataFrame).rows,
      r.length = nslKddAttributes.length :=
  C9_row_drop_policy.1 sampleMixed ⟨nslKddAttributes, [List.replicate 42 (Field.intv 0)]⟩
    (by decide)

/-- The quota-driven assignment only distributes the input rows: test part
and train part together are a permutation of the input. -/
theorem assignGo_perm {α L : Type} [DecidableEq L] (lab : α → L) (q : L → Nat)
    (rows : List α) :
    ((assignGo lab q rows).1 ++ (assignGo lab q rows).2).Perm rows := by
  induction rows generalizing q with
  | nil => simp [assignGo]
  | cons r rest ih =>
    by_cases hq : 0 < q (lab r)
    · have hstep : assignGo lab q (r :: rest) =
        (r :: (assignGo lab (fun l => if l = lab r then q l - 1 else q l) rest).1,
         (assignGo lab (fun l => if l = lab r then q l - 1 else q l) rest).2) := by
        simp [assignGo, hq]
      rw [hstep]
      simpa using (ih (fun l => if l = lab r then q l - 1 else q l)).cons r
    · have hstep : assignGo lab q (r :: rest) =
        ((assignGo lab q rest).1, r :: (assignGo lab q rest).2) := by
        simp [assignGo, hq]
      rw [hstep]
      exact List.Perm.trans List.perm_middle ((ih q).cons r)

/-- A successful binary stratified split partitions its input: the two
returned parts are a permutation of the input rows. -/
theorem sciTTS_ok_perm {α L : Type} [DecidableEq L] {num den r : Nat} {lab : α → L}
    {rows a b : List α} (h : sciTrainTestSplit num den r lab rows = .ok (a, b)) :
    (a ++ b).Perm rows := by
  simp only [sciTrainTestSplit] at h
  split at h
  · cases h
  · split at h
    · cases h
    · split at h
      · cases h
      · split at h
        · cases h
        · injection h with h2
          rw [Prod.mk.injEq] at h2
          obtain ⟨ha, hb⟩ := h2
          subst ha
          subst hb
          exact List.perm_append_comm.trans
            (assignGo_perm lab (quotaFun lab rows (ceilDiv (num * rows.length) den)) rows)

/-- A successful run of the splitter decomposes into its two stages: the
first stage yields the train part and a remainder, the second stage splits
that remainder into validation and test, both with the same seed. -/
theorem tvt_ok_decompose {α L : Type} [DecidableEq L] {rstate : Nat} {lab : α → L}
    {df tr v te : List α}
    (h : train_val_test_split_optimized rstate lab df = .ok (tr, v, te)) :
    ∃ t1, sciTrainTestSplit 2 5 rstate lab df = .ok (tr, t1) ∧
      sciTrainTestSplit 1 2 rstate lab t1 = .ok (v, te) := by
  unfold train_val_test_split_optimized at h
  cases h1 : sciTrainTestSplit 2 5 rstate lab df with
  | error e => simp [h1] at h
  | ok p =>
    simp only [h1] at h
    cases h2 : sciTrainTestSplit 1 2 rstate lab p.2 with
    | error e => simp [h2] at h
    | ok q2 =>
      simp only [h2] at h
      injection h with h3
      rw [Prod.mk.injEq, Prod.mk.injEq] at h3
      obtain ⟨ha, hb, hc⟩ := h3
      subst ha
      subst hb
      subst hc
      refine ⟨p.2, ?_, ?_⟩
      · exact rfl
      · rw [h2]

/-- Stratification refuses a class with exactly one member: the binary
split fails with the insufficiency message. -/
theorem sciTTS_singleton_error {α L : Type} [DecidableEq L] (num den r : Nat) (lab : α → L)
    (rows : List α) (l : L) (h : countLabel lab rows l = 1) :
    sciTrainTestSplit num den r lab rows = .error leastPopulatedMsg := by
  have hmem : l ∈ rows.map lab := by
    have hpos : 0 < (rows.map lab).count l := by
      unfold countLabel at h
      omega
    exact List.count_pos_iff.mp hpos
  have hne : rows.length ≠ 0 := by
    intro h0
    rw [List.length_eq_zero] at h0
    subst h0
    simp [countLabel] at h
  have hany : (classList lab rows).any (fun x => countLabel lab rows x < 2) = true := by
    rw [List.any_eq_true]
    refine ⟨l, List.mem_dedup.mpr hmem, ?_⟩
    simp [h]
  simp only [sciTrainTestSplit]
  rw [if_neg hne, if_pos hany]

/-- C1: whenever the splitter succeeds, train, validation and test together
are a permutation of the input rows (the union is exactly the input row
multiset), their sizes add up to the input size, and for an input without
duplicate rows the three splits are pairwise disjoint. -/
theorem C1_split_partition : ∀ (α L : Type) [inst : DecidableEq L] (rstate : Nat)
    (lab : α → L) (df tr v te : List α),
    train_val_test_split_optimized rstate lab df = .ok (tr, v, te) →
    (tr ++ v ++ te).Perm df ∧
    tr.length + v.length + te.length = df.length ∧
    (df.Nodup → tr.Disjoint v ∧ tr.Disjoint te ∧ v.Disjoint te) := by
  intro α L inst rstate lab df tr v te h
  obtain ⟨t1, h1, h2⟩ := tvt_ok_decompose h
  have P1 : (tr ++ t1).Perm df := sciTTS_ok_perm h1
  have P2 : (v ++ te).Perm t1 := sciTTS_ok_perm h2
  have P : (tr ++ (v ++ te)).Perm df := (P2.append_left tr).trans P1
  have Q : (tr ++ v ++ te).Perm df := by
    rw [List.append_assoc]
    exact P
  refine ⟨Q, ?_, ?_⟩
  · simpa [List.length_append, Nat.add_assoc] using Q.length_eq
  · intro hnd
    have hnd2 : (tr ++ v ++ te).Nodup := (Q.nodup_iff).mpr hnd
    rw [List.nodup_append] at hnd2
    obtain ⟨h12, h3, hdis⟩ := hnd2
    rw [List.nodup_append] at h12
    obtain ⟨ht, hv, htv⟩ := h12
    rw [List.disjoint_append_left] at hdis
    exact ⟨htv, hdis.1, hdis.2⟩

/-- C1 witness: on ten one-class rows the splitter returns 6/2/2 rows that
partition the input. -/
theorem C1_split_partition_witness :
    (([4, 5, 6, 7, 8, 9] ++ [2, 3] ++ [0, 1] : List Nat)).Perm (List.range 10) ∧
    ([4, 5, 6, 7, 8, 9] : List Nat).length + ([2, 3] : List Nat).length +
      ([0, 1] : List Nat).length = (List.range 10).length ∧
    ((List.range 10).Nodup → ([4, 5, 6, 7, 8, 9] : List Nat).Disjoint [2, 3] ∧
      ([4, 5, 6, 7, 8, 9] : List Nat).Disjoint [0, 1] ∧
      ([2, 3] : List Nat).Disjoint [0, 1]) :=
  C1_split_partition Nat Nat 42 (fun _ => 0) (List.range 10) [4, 5, 6, 7, 8, 9] [2, 3] [0, 1]
    (by decide)

/-- C6: a class with exactly one member in the whole table makes the
splitter fail with the insufficiency message before producing anything,
and likewise a class with exactly one member in the 40% remainder handed
to the second stage. -/
theorem C6_insufficient_class : ∀ (α L : Type) [inst : DecidableEq L] (rstate : Nat)
    (lab : α → L) (df : List α) (l : L),
    (countLabel lab df l = 1 →
      train_val_test_split_optimized rstate lab df = .error leastPopulatedMsg) ∧
    (∀ tr t1, sciTrainTestSplit 2 5 rstate lab df = .ok (tr, t1) →
      countLabel lab t1 l = 1 →
      train_val_test_split_optimized rstate lab df = .error leastPopulatedMsg) := by
  intro α L inst rstate lab df l
  constructor
  · intro h
    unfold train_val_test_split_optimized
    simp only [sciTTS_singleton_error 2 5 rstate lab df l h]
  · intro tr t1 h1 h2
    unfold train_val_test_split_optimized
    simp only [h1, sciTTS_singleton_error 1 2 rstate lab t1 l h2]

/-- C6 witness: a table whose class 0 has a single row fails at stage one,
and a table whose stage-one remainder holds a single row of class 0 fails
at stage two. -/
theorem C6_insufficient_class_witness :
    train_val_test_split_optimized 42 (fun i : Nat => i) [0, 1, 1] =
      .error leastPopulatedMsg ∧
    train_val_test_split_optimized 42 (fun i : Nat => i) [0, 0, 1, 1, 1, 1, 1, 1, 1, 1] =
      .error leastPopulatedMsg :=
  ⟨(C6_insufficient_class Nat Nat 42 (fun i => i) [0, 1, 1] 0).1 (by decide),
   (C6_insufficient_class Nat Nat 42 (fun i => i) [0, 0, 1, 1, 1, 1, 1, 1, 1, 1] 0).2
     [0, 1, 1, 1, 1, 1] [0, 1, 1, 1] (by decide) (by decide)⟩

set_option maxRecDepth 8000 in
/-- C5: the splitter is exactly the two-stage composition of the binary
stratified split with test sizes 40% then 50%, reusing the same seed in
both stages; on the 150-row table with label counts 100/30/20 it returns
sizes 90/30/30 and per-split class counts 60/18/12, 20/6/4 and 20/6/4, so
each split's class ratio is exactly 10:3:2. -/
theorem C5_two_stage_split :
    (∀ (α L : Type) [inst : DecidableEq L] (rstate : Nat) (lab : α → L)
      (df tr v te : List α),
      train_val_test_split_optimized rstate lab df = .ok (tr, v, te) →
      ∃ t1, sciTrainTestSplit 2 5 rstate lab df = .ok (tr, t1) ∧
        sciTrainTestSplit 1 2 rstate lab t1 = .ok (v, te)) ∧
    splitSizes (train_val_test_split_optimized 42 lab150 df150) = some (90, 30, 30) ∧
    splitLabelCounts lab150 (train_val_test_split_optimized 42 lab150 df150) 0 =
      some (60, 20, 20) ∧
    splitLabelCounts lab150 (train_val_test_split_optimized 42 lab150 df150) 1 =
      some (18, 6, 6) ∧
    splitLabelCounts lab150 (train_val_test_split_optimized 42 lab150 df150) 2 =
      some (12, 4, 4) := by
  refine ⟨?_, by decide, by decide, by decide, by decide⟩
  intro α L inst rstate lab df tr v te h
  exact tvt_ok_decompose h

/-- C5 witness: on eight one-class rows the splitter's output is the
composition of the two binary stages with the shared seed. -/
theorem C5_two_stage_split_witness :
    ∃ t1, sciTrainTestSplit 2 5 42 (fun _ : Nat => (0 : Nat)) (List.range 8) =
        .ok ([4, 5, 6, 7], t1) ∧
      sciTrainTestSplit 1 2 42 (fun _ : Nat => (0 : Nat)) t1 = .ok ([2, 3], [0, 1]) :=
  C5_two_stage_split.1 Nat Nat 42 (fun _ => 0) (List.range 8) [4, 5, 6, 7] [2, 3] [0, 1]
    (by decide)

/-- A digit character is not the dot. -/
theorem not_dot_of_isDigit {c : Char} (h : c.isDigit = true) : c ≠ '.' := by
  intro he
  subst he
  exact absurd h (by decide)

/-- A digit character is not the minus sign. -/
theorem not_dash_of_isDigit {c : Char} (h : c.isDigit = true) : c ≠ '-' := by
  intro he
  subst he
  exact absurd h (by decide)

/-- The three shapes a character of the numeric alphabet can take. -/
theorem isNumChar_cases {c : Char} (h : isNumChar c = true) :
    c.isDigit = true ∨ c = '.' ∨ c = '-' := by
  by_cases h1 : c = '.'
  · exact Or.inr (Or.inl h1)
  · by_cases h2 : c = '-'
    · exact Or.inr (Or.inr h2)
    · simp [isNumChar, h1, h2] at h
      exact Or.inl h

/-- The digit gate of the source passes exactly when every character is a
digit, a dot or a minus sign and at least one digit is present. -/
theorem digitCheckL_iff (v : List Char) :
    digitCheckL v = true ↔
      ((∀ c ∈ v, isNumChar c = true) ∧ ∃ c ∈ v, c.isDigit = true) := by
  unfold digitCheckL
  rw [Bool.and_eq_true, List.all_eq_true]
  constructor
  · rintro ⟨hne, hall⟩
    have hfne : v.filter (fun c => !(c = '.') && !(c = '-')) ≠ [] := by
      intro h0
      rw [h0] at hne
      exact absurd hne (by decide)
    obtain ⟨c0, hc0f⟩ := List.exists_mem_of_ne_nil _ hfne
    obtain ⟨hc0v, hc0p⟩ := List.mem_filter.mp hc0f
    refine ⟨?_, c0, hc0v, hall c0 hc0f⟩
    intro c hc
    by_cases h1 : c = '.'
    · subst h1; decide
    · by_cases h2 : c = '-'
      · subst h2; decide
      · have hcf : c ∈ v.filter (fun c => !(c = '.') && !(c = '-')) :=
          List.mem_filter.mpr ⟨hc, by simp [h1, h2]⟩
        have := hall c hcf
        simp [isNumChar, this]
  · rintro ⟨hnum, c0, hc0v, hc0d⟩
    have hc0f : c0 ∈ v.filter (fun c => !(c = '.') && !(c = '-')) :=
      List.mem_filter.mpr ⟨hc0v, by
        simp [not_dot_of_isDigit hc0d, not_dash_of_isDigit hc0d]⟩
    constructor
    · have : v.filter (fun c => !(c = '.') && !(c = '-')) ≠ [] := List.ne_nil_of_mem hc0f
      simp [List.isEmpty_iff, this]
    · intro c hcf
      obtain ⟨hcv, hcp⟩ := List.mem_filter.mp hcf
      rcases isNumChar_cases (hnum c hcv) with h | h | h
      · exact h
      · subst h; simp at hcp
      · subst h; simp at hcp

/-- The sign-free float grammar accepts digits-and-dots input with at least
one digit and at most one dot. -/
theorem pyFloatCore_isSome {w : List Char}
    (hall : ∀ c ∈ w, (c.isDigit || c = '.') = true)
    (hany : ∃ c ∈ w, c.isDigit = true) (hble : w.count '.' ≤ 1) :
    ∃ p, pyFloatCore w = some p := by
  unfold pyFloatCore
  rw [if_pos (by
    rw [Bool.and_eq_true, Bool.and_eq_true, List.all_eq_true, List.any_eq_true]
    exact ⟨⟨hall, hany⟩, Nat.ble_eq.mpr hble⟩)]
  exact ⟨_, rfl⟩

/-- The sign-free float grammar refuses input holding a minus sign. -/
theorem pyFloatCore_none_of_dash {w : List Char} (hw : '-' ∈ w) :
    pyFloatCore w = none := by
  unfold pyFloatCore
  rw [if_neg]
  intro hcond
  rw [Bool.and_eq_true, Bool.and_eq_true, List.all_eq_true] at hcond
  have := hcond.1.1 '-' hw
  exact absurd this (by decide)

/-- The sign-free float grammar refuses input with two or more dots. -/
theorem pyFloatCore_none_of_dots {w : List Char} (hw : ¬w.count '.' ≤ 1) :
    pyFloatCore w = none := by
  unfold pyFloatCore
  rw [if_neg]
  intro hcond
  rw [Bool.and_eq_true, Bool.and_eq_true] at hcond
  exact hw (Nat.ble_eq.mp hcond.2)

/-- A leading minus sign followed by a dash-free tail satisfies the
minus-sign side condition. -/
theorem minusOkL_cons_dash (w : List Char) (hw : '-' ∉ w) :
    minusOkL ('-' :: w) = true := by
  unfold minusOkL
  rw [List.count_cons_self, List.count_eq_zero.mpr hw]
  simp

/-- Input without any minus sign satisfies the minus-sign side condition. -/
theorem minusOkL_no_dash {v : List Char} (hv : '-' ∉ v) : minusOkL v = true := by
  unfold minusOkL
  rw [List.count_eq_zero.mpr hv]
  simp

/-- The float parser accepts every string of the numeric alphabet with a
digit, at most one dot and a well-placed minus sign. -/
theorem pyFloatParseL_isSome {v : List Char}
    (hnum : ∀ c ∈ v, isNumChar c = true) (hdig : ∃ c ∈ v, c.isDigit = true)
    (hdot : v.count '.' ≤ 1) (hminus : minusOkL v = true) :
    ∃ p, pyFloatParseL v = some p := by
  cases v with
  | nil => obtain ⟨c, hc, _⟩ := hdig; cases hc
  | cons c w =>
    by_cases hc : c = '-'
    · subst hc
      have hcount1 : ('-' :: w).count '-' = w.count '-' + 1 := List.count_cons_self '-' w
      have hwnd : '-' ∉ w := by
        unfold minusOkL at hminus
        rw [Bool.or_eq_true] at hminus
        rcases hminus with h | h
        · rw [hcount1] at h; simp at h
        · rw [Bool.and_eq_true] at h
          have := h.1
          rw [hcount1] at this
          simp at this
          exact List.count_eq_zero.mp this
      have hallw : ∀ x ∈ w, (x.isDigit || x = '.') = true := by
        intro x hx
        rcases isNumChar_cases (hnum x (List.mem_cons_of_mem _ hx)) with h | h | h
        · simp [h]
        · simp [h]
        · subst h; exact absurd hx hwnd
      have hanyw : ∃ x ∈ w, x.isDigit = true := by
        obtain ⟨c0, hc0, hd0⟩ := hdig
        rcases List.mem_cons.mp hc0 with h | h
        · subst h; exact absurd hd0 (by decide)
        · exact ⟨c0, h, hd0⟩
      have hdotw : w.count '.' ≤ 1 := by
        rw [List.count_cons_of_ne (by decide : ('.' : Char) ≠ '-')] at hdot
        exact hdot
      obtain ⟨p, hp⟩ := pyFloatCore_isSome hallw hanyw hdotw
      unfold pyFloatParseL
      rw [if_pos (show ('-' :: w).head? = some '-' from rfl)]
      rw [show ('-' :: w).tail = w from rfl, hp]
      exact ⟨_, rfl⟩
    · have hvnd : '-' ∉ c :: w := by
        unfold minusOkL at hminus
        rw [Bool.or_eq_true] at hminus
        rcases hminus with h | h
        · exact List.count_eq_zero.mp (by simpa using h)
        · rw [Bool.and_eq_true] at h
          have hh := h.2
          simp at hh
          exact absurd hh hc
      have hallv : ∀ x ∈ c :: w, (x.isDigit || x = '.') = true := by
        intro x hx
        rcases isNumChar_cases (hnum x hx) with h | h | h
        · simp [h]
        · simp [h]
        · subst h; exact absurd hx hvnd
      obtain ⟨p, hp⟩ := pyFloatCore_isSome hallv hdig hdot
      unfold pyFloatParseL
      rw [if_neg (by intro heq; exact hc (by simpa using heq))]
      rw [hp]
      exact ⟨_, rfl⟩

/-- The float parser refuses every string of the numeric alphabet with two
or more dots or a misplaced minus sign. -/
theorem pyFloatParseL_none {v : List Char}
    (hnum : ∀ c ∈ v, isNumChar c = true)
    (hbad : ¬(v.count '.' ≤ 1 ∧ minusOkL v = true)) :
    pyFloatParseL v = none := by
  cases v with
  | nil => exact absurd ⟨by simp, by decide⟩ hbad
  | cons c w =>
    by_cases hc : c = '-'
    · subst hc
      unfold pyFloatParseL
      rw [if_pos (show ('-' :: w).head? = some '-' from rfl)]
      rw [show ('-' :: w).tail = w from rfl]
      by_cases hw : '-' ∈ w
      · rw [pyFloatCore_none_of_dash hw]
        rfl
      · have hmok : minusOkL ('-' :: w) = true := minusOkL_cons_dash w hw
        have hdots : ¬('-' :: w).count '.' ≤ 1 := by
          intro hle
          exact hbad ⟨hle, hmok⟩
        have hdotw : ¬w.count '.' ≤ 1 := by
          rw [List.count_cons_of_ne (by decide : ('.' : Char) ≠ '-')] at hdots
          exact hdots
        rw [pyFloatCore_none_of_dots hdotw]
        rfl
    · unfold pyFloatParseL
      rw [if_neg (by intro heq; exact hc (by simpa using heq))]
      by_cases hm : '-' ∈ c :: w
      · rw [pyFloatCore_none_of_dash hm]
        rfl
      · have hmok : minusOkL (c :: w) = true := minusOkL_no_dash hm
        have hdots : ¬(c :: w).count '.' ≤ 1 := by
          intro hle
          exact hbad ⟨hle, hmok⟩
        rw [pyFloatCore_none_of_dots hdots]
        rfl

/-- The sign-free int grammar accepts nonempty all-digit input. -/
theorem pyIntCore_isSome {w : List Char} (hne : w ≠ [])
    (hall : ∀ c ∈ w, c.isDigit = true) : ∃ n, pyIntCore w = some n := by
  unfold pyIntCore
  rw [if_pos (by
    rw [Bool.and_eq_true, List.all_eq_true]
    refine ⟨?_, hall⟩
    simp [List.isEmpty_iff, hne])]
  exact ⟨_, rfl⟩

/-- The sign-free int grammar refuses input holding a non-digit. -/
theorem pyIntCore_none_of_bad {w : List Char} {c : Char} (hc : c ∈ w)
    (hcd : c.isDigit = false) : pyIntCore w = none := by
  unfold pyIntCore
  rw [if_neg]
  intro hcond
  rw [Bool.and_eq_true, List.all_eq_true] at hcond
  rw [hcond.2 c hc] at hcd
  cases hcd

/-- The int parser accepts every dot-free string of the numeric alphabet
with a digit and a well-placed minus sign. -/
theorem pyIntParseL_isSome {v : List Char}
    (hnum : ∀ c ∈ v, isNumChar c = true) (hdig : ∃ c ∈ v, c.isDigit = true)
    (hnodot : '.' ∉ v) (hminus : minusOkL v = true) :
    ∃ n, pyIntParseL v = some n := by
  cases v with
  | nil => obtain ⟨c, hc, _⟩ := hdig; cases hc
  | cons c w =>
    by_cases hc : c = '-'
    · subst hc
      have hwnd : '-' ∉ w := by
        unfold minusOkL at hminus
        rw [Bool.or_eq_true] at hminus
        rcases hminus with h | h
        · rw [List.count_cons_self] at h; simp at h
        · rw [Bool.and_eq_true] at h
          have := h.1
          rw [List.count_cons_self] at this
          simp at this
          exact List.count_eq_zero.mp this
      have hallw : ∀ x ∈ w, x.isDigit = true := by
        intro x hx
        rcases isNumChar_cases (hnum x (List.mem_cons_of_mem _ hx)) with h | h | h
        · exact h
        · subst h; exact absurd (List.mem_cons_of_mem _ hx) hnodot
        · subst h; exact absurd hx hwnd
      have hwne : w ≠ [] := by
        obtain ⟨c0, hc0, hd0⟩ := hdig
        rcases List.mem_cons.mp hc0 with h | h
        · subst h; exact absurd hd0 (by decide)
        · exact List.ne_nil_of_mem h
      obtain ⟨n, hn⟩ := pyIntCore_isSome hwne hallw
      unfold pyIntParseL
      rw [if_pos (show ('-' :: w).head? = some '-' from rfl)]
      rw [show ('-' :: w).tail = w from rfl, hn]
      exact ⟨_, rfl⟩
    · have hvnd : '-' ∉ c :: w := by
        unfold minusOkL at hminus
        rw [Bool.or_eq_true] at hminus
        rcases hminus with h | h
        · exact List.count_eq_zero.mp (by simpa using h)
        · rw [Bool.and_eq_true] at h
          have hh := h.2
          simp at hh
          exact absurd hh hc
      have hallv : ∀ x ∈ c :: w, x.isDigit = true := by
        intro x hx
        rcases isNumChar_cases (hnum x hx) with h | h | h
        · exact h
        · subst h; exact absurd hx hnodot
        · subst h; exact absurd hx hvnd
      obtain ⟨n, hn⟩ := pyIntCore_isSome (by simp) hallv
      unfold pyIntParseL
      rw [if_neg (by intro heq; exact hc (by simpa using heq))]
      rw [hn]
      exact ⟨_, rfl⟩

/-- The int parser refuses every dot-free string with a misplaced minus
sign. -/
theorem pyIntParseL_none {v : List Char}
    (hnodot : '.' ∉ v) (hbad : ¬minusOkL v = true) :
    pyIntParseL v = none := by
  cases v with
  | nil => exact absurd (by decide) hbad
  | cons c w =>
    by_cases hc : c = '-'
    · subst hc
      have hw : '-' ∈ w := by
        by_contra hnw
        exact hbad (minusOkL_cons_dash w hnw)
      unfold pyIntParseL
      rw [if_pos (show ('-' :: w).head? = some '-' from rfl)]
      rw [show ('-' :: w).tail = w from rfl]
      rw [pyIntCore_none_of_bad hw (by decide)]
      rfl
    · have hm : '-' ∈ c :: w := by
        by_contra hnm
        exact hbad (minusOkL_no_dash hnm)
      unfold pyIntParseL
      rw [if_neg (by intro heq; exact hc (by simpa using heq))]
      rw [pyIntCore_none_of_bad hm (by decide)]

/-- Splitting the spec's numeric pattern into its four conjuncts. -/
theorem numericPatternL_parts {v : List Char} (hp : numericPatternL v = true) :
    (∀ c ∈ v, isNumChar c = true) ∧ (∃ c ∈ v, c.isDigit = true) ∧
      v.count '.' ≤ 1 ∧ minusOkL v = true := by
  unfold numericPatternL at hp
  rw [Bool.and_eq_true, Bool.and_eq_true, Bool.and_eq_true, List.any_eq_true,
    List.all_eq_true] at hp
  exact ⟨hp.1.1.2, hp.1.1.1, Nat.ble_eq.mp hp.1.2, hp.2⟩

/-- Assembling the spec's numeric pattern from its four conjuncts. -/
theorem numericPatternL_build {v : List Char} (hnum : ∀ c ∈ v, isNumChar c = true)
    (hdig : ∃ c ∈ v, c.isDigit = true) (hble : v.count '.' ≤ 1)
    (hmok : minusOkL v = true) : numericPatternL v = true := by
  unfold numericPatternL
  rw [Bool.and_eq_true, Bool.and_eq_true, Bool.and_eq_true, List.any_eq_true,
    List.all_eq_true]
  exact ⟨⟨⟨hdig, hnum⟩, Nat.ble_eq.mpr hble⟩, hmok⟩

/-- C4: a stripped field is coerced to a float exactly when it matches the
spec's numeric pattern (digits, at most one dot, at most one leading minus)
and holds a dot, to an integer when it matches the pattern without a dot,
and is kept as the string itself otherwise; concretely "0" becomes integer
0, "1.5" becomes the float 15/10 = 3/2, "tcp" stays a string, and
surrounding whitespace and quotes are stripped first. -/
theorem C4_field_coercion :
    (∀ v : List Char,
      (numericPatternL v = true → v.contains '.' = true →
        ∃ m e, processStrippedL v = Field.floatv m e) ∧
      (numericPatternL v = true → v.contains '.' = false →
        ∃ n, processStrippedL v = Field.intv n) ∧
      (numericPatternL v = false → processStrippedL v = Field.strv (String.mk v))) ∧
    processValue "0" = Field.intv 0 ∧
    processValue "1.5" = Field.floatv 15 1 ∧
    floatValue 15 1 = 3 / 2 ∧
    processValue "tcp" = Field.strv "tcp" ∧
    processValue " \"tcp\" " = Field.strv "tcp" := by
  refine ⟨?_, by decide, by decide, by norm_num [floatValue], by decide, by decide⟩
  intro v
  refine ⟨?_, ?_, ?_⟩
  · intro hp hdot
    obtain ⟨hnum, hdig, hble, hmok⟩ := numericPatternL_parts hp
    have hd : digitCheckL v = true := (digitCheckL_iff v).mpr ⟨hnum, hdig⟩
    unfold processStrippedL
    rw [if_pos hd, if_pos hdot]
    obtain ⟨p, hp2⟩ := pyFloatParseL_isSome hnum hdig hble hmok
    rw [hp2]
    exact ⟨p.1, p.2, rfl⟩
  · intro hp hdot
    obtain ⟨hnum, hdig, hble, hmok⟩ := numericPatternL_parts hp
    have hd : digitCheckL v = true := (digitCheckL_iff v).mpr ⟨hnum, hdig⟩
    have hnodot : '.' ∉ v := by
      intro hmem
      have hc : v.contains '.' = true := List.elem_iff.mpr hmem
      rw [hc] at hdot
      cases hdot
    unfold processStrippedL
    rw [if_pos hd, if_neg (by rw [hdot]; exact Bool.false_ne_true)]
    obtain ⟨n, hn⟩ := pyIntParseL_isSome hnum hdig hnodot hmok
    rw [hn]
    exact ⟨n, rfl⟩
  · intro hp
    by_cases hd : digitCheckL v = true
    · obtain ⟨hnum, hdig⟩ := (digitCheckL_iff v).mp hd
      have hbad : ¬(v.count '.' ≤ 1 ∧ minusOkL v = true) := by
        rintro ⟨hble, hmok⟩
        rw [numericPatternL_build hnum hdig hble hmok] at hp
        cases hp
      by_cases hdot : v.contains '.' = true
      · unfold processStrippedL
        rw [if_pos hd, if_pos hdot, pyFloatParseL_none hnum hbad]
      · have hnodot : '.' ∉ v := fun hmem => hdot (List.elem_iff.mpr hmem)
        have hble : v.count '.' ≤ 1 := by
          rw [List.count_eq_zero.mpr hnodot]
          omega
        have hmbad : ¬minusOkL v = true := fun hmok => hbad ⟨hble, hmok⟩
        unfold processStrippedL
        rw [if_pos hd, if_neg hdot, pyIntParseL_none hnodot hmbad]
    · unfold processStrippedL
      rw [if_neg hd]

/-- C4 witness: the pattern characterization applied to three concrete
fields. -/
theorem C4_field_coercion_witness :
    (∃ m e, processStrippedL ['1', '.', '5'] = Field.floatv m e) ∧
    (∃ n, processStrippedL ['-', '7'] = Field.intv n) ∧
    processStrippedL ['t', 'c', 'p'] = Field.strv (String.mk ['t', 'c', 'p']) :=
  ⟨(C4_field_coercion.1 ['1', '.', '5']).1 (by decide) (by decide),
   (C4_field_coercion.1 ['-', '7']).2.1 (by decide) (by decide),
   (C4_field_coercion.1 ['t', 'c', 'p']).2.2 (by decide)⟩

end NslKdd
